import Mathlib

/-!
Verification of the speedplane scheduling engine and live progress layer.

The definitions below are a shallow embedding of the Go sources:
  * scheduler/scheduler.go   (Scheduler: shouldRun, check, runOnce, SetSchedules, NextRunInfo)
  * api/server.go            (progressTracker, handleRunStream)
  * api websocket manager    (WSConnectionManager: Add/Remove/Broadcast)
Go standard-library functions the code calls (time.ParseDuration, strconv.Atoi,
strings.Split, and the civil-calendar arithmetic behind time.Date / Year /
YearDay) are modelled as pure Lean functions with the same observable
behaviour.
-/

namespace Speedplane

/-! ## Time model

Go time.Time values are modelled by an absolute instant (nanoseconds since
January 1, year 1, 00:00:00 UTC, so that the Go zero Time is nanos = 0)
together with a fixed-offset location (seconds east of UTC).  Durations are
mathematical integers counted in nanoseconds; Go saturates Time.Sub at the
int64 range, which never changes any comparison against a positive parsed
duration, so Sub is modelled as exact integer subtraction. -/

def nsPerSec : Int := 1000000000

def nsPerDay : Int := 86400 * nsPerSec

structure Time where
  nanos : Int
  loc : Int
  deriving Repr, DecidableEq

/-- Model of Go Time.IsZero: the zero Time is January 1, year 1, 00:00:00 UTC. -/
def Time.isZero (t : Time) : Bool := t.nanos == 0

/-- Model of Go Time.Sub, as an exact integer duration in nanoseconds. -/
def Time.sub (a b : Time) : Int := a.nanos - b.nanos

/-- Model of Go Time.Before. -/
def Time.before (a b : Time) : Bool := decide (a.nanos < b.nanos)

/-- Model of Go Time.Add (duration in nanoseconds). -/
def Time.add (t : Time) (d : Int) : Time := { t with nanos := t.nanos + d }

/-- Model of Go Time.In: same instant, viewed in another fixed-offset location. -/
def Time.inLoc (t : Time) (loc : Int) : Time := { nanos := t.nanos, loc := loc }

/-- Go zero Time (the value a map lookup returns for an absent key). -/
def zeroTime : Time := { nanos := 0, loc := 0 }

/-! Civil-calendar arithmetic behind Go time.Date / Year / Month / Day /
YearDay for fixed-offset locations, via the standard days-to-civil
conversions (day 0 is 0001-01-01 of the proleptic Gregorian calendar,
matching Go's internal absolute time). -/

/-- Civil date (year, month, day) of a day count since 0001-01-01. -/
def civilFromDays (z0 : Int) : Int × Int × Int :=
  let z := z0 + 306
  let era := Int.fdiv z 146097
  let doe := z - era * 146097
  let yoe := Int.fdiv (doe - Int.fdiv doe 1460 + Int.fdiv doe 36524 - Int.fdiv doe 146096) 365
  let y := yoe + era * 400
  let doy := doe - (365 * yoe + Int.fdiv yoe 4 - Int.fdiv yoe 100)
  let mp := Int.fdiv (5 * doy + 2) 153
  let d := doy - Int.fdiv (153 * mp + 2) 5 + 1
  let m := if mp < 10 then mp + 3 else mp - 9
  (y + (if m ≤ 2 then 1 else 0), m, d)

/-- Day count since 0001-01-01 of a civil date (year, month, day). -/
def daysFromCivil (y m d : Int) : Int :=
  let y1 := y - (if m ≤ 2 then 1 else 0)
  let era := Int.fdiv y1 400
  let yoe := y1 - era * 400
  let doy := Int.fdiv (153 * (m + (if m > 2 then -3 else 9)) + 2) 5 + d - 1
  let doe := yoe * 365 + Int.fdiv yoe 4 - Int.fdiv yoe 100 + doy
  era * 146097 + doe - 306

/-- Nanoseconds since 0001-01-01 00:00:00 of the local clock reading. -/
def Time.localNanos (t : Time) : Int := t.nanos + t.loc * nsPerSec

/-- Local day count since 0001-01-01. -/
def Time.localDays (t : Time) : Int := Int.fdiv t.localNanos nsPerDay

/-- Model of Go Time.Year. -/
def Time.year (t : Time) : Int := (civilFromDays t.localDays).1

/-- Model of Go Time.Month (as its numeric value 1..12). -/
def Time.month (t : Time) : Int := (civilFromDays t.localDays).2.1

/-- Model of Go Time.Day. -/
def Time.day (t : Time) : Int := (civilFromDays t.localDays).2.2

/-- Model of Go Time.YearDay (1 for January 1). -/
def Time.yearDay (t : Time) : Int := t.localDays - daysFromCivil t.year 1 1 + 1

/-- Nanoseconds into the local day. -/
def Time.nanoOfDay (t : Time) : Int := Int.fmod t.localNanos nsPerDay

/-- Model of Go Time.Hour. -/
def Time.clockHour (t : Time) : Int := Int.fdiv t.nanoOfDay (3600 * nsPerSec)

/-- Model of Go Time.Minute. -/
def Time.clockMin (t : Time) : Int := Int.fdiv (Int.fmod t.nanoOfDay (3600 * nsPerSec)) (60 * nsPerSec)

/-- Model of Go Time.Second. -/
def Time.clockSec (t : Time) : Int := Int.fdiv (Int.fmod t.nanoOfDay (60 * nsPerSec)) nsPerSec

/-- Model of Go Time.Nanosecond. -/
def Time.clockNsec (t : Time) : Int := Int.fmod t.nanoOfDay nsPerSec

/-- Model of Go time.Date for a fixed-offset location: the month is normalised
into 1..12 (Go does the same before converting), out-of-range days, hours,
minutes, seconds and nanoseconds simply offset the instant, exactly as Go's
normalisation produces. -/
def date (year month day hour min sec nsec loc : Int) : Time :=
  let m0 := month - 1
  let y := year + Int.fdiv m0 12
  let m := Int.fmod m0 12 + 1
  { nanos := daysFromCivil y m day * nsPerDay
      + (hour * 3600 + min * 60 + sec) * nsPerSec + nsec - loc * nsPerSec,
    loc := loc }

/-- Model of Go Time.AddDate. -/
def Time.addDate (t : Time) (years months days : Int) : Time :=
  date (t.year + years) (t.month + months) (t.day + days)
    t.clockHour t.clockMin t.clockSec t.clockNsec t.loc

/-! ## Go standard-library string parsing used by the scheduler -/

/-- Model of the digit-consuming helper behind Go time.ParseDuration
(leadingInt): consumes leading decimal digits into the accumulator, failing on
uint64 overflow past 2^63. -/
def leadingInt : List Char → Nat → Option (Nat × List Char)
  | [], x => some (x, [])
  | c :: rest, x =>
    if c.isDigit then
      if x > 2 ^ 63 / 10 then none
      else
        let x1 := x * 10 + (c.toNat - 48)
        if x1 > 2 ^ 63 then none
        else leadingInt rest x1
    else some (x, c :: rest)

/-- Model of the fraction-consuming helper behind Go time.ParseDuration
(leadingFraction): consumes digits after a decimal point, tracking the scale
and silently discarding digits once the value would overflow. -/
def leadingFraction : List Char → Nat → Nat → Bool → Nat × Nat × List Char
  | [], x, scale, _ => (x, scale, [])
  | c :: rest, x, scale, overflow =>
    if c.isDigit then
      if overflow then leadingFraction rest x scale overflow
      else if x > (2 ^ 63 - 1) / 10 then leadingFraction rest x scale true
      else
        let y := x * 10 + (c.toNat - 48)
        if y > 2 ^ 63 then leadingFraction rest x scale true
        else leadingFraction rest y (scale * 10) overflow
    else (x, scale, c :: rest)

/-- Model of Go time.ParseDuration's unit table, in nanoseconds per unit. -/
def unitMap (u : List Char) : Option Nat :=
  if u = ['n', 's'] then some 1
  else if u = ['u', 's'] then some 1000
  else if u = ['µ', 's'] then some 1000
  else if u = ['μ', 's'] then some 1000
  else if u = ['m', 's'] then some 1000000
  else if u = ['s'] then some 1000000000
  else if u = ['m'] then some 60000000000
  else if u = ['h'] then some 3600000000000
  else none

/-- One pass of Go time.ParseDuration's component loop ("number, optional
fraction, unit" repeated), with the list length as fuel (each component
consumes at least its one-character unit, so the fuel never runs out on the
lengths it is called with).  The fractional contribution is computed with
exact integer arithmetic where Go uses float64; the two agree on every value
a schedule can care about (the difference only appears beyond 53-bit
fraction precision).  The overflow comparison against 2^63 is checked
unconditionally; when no fraction was present the value is already bounded by
the pre-multiplication check, so this matches Go's conditional check. -/
def parseDurationLoop : Nat → List Char → Nat → Option Nat
  | _, [], d => some d
  | 0, _ :: _, _ => none
  | fuel + 1, c :: rest, d =>
    let s := c :: rest
    if ¬(c = '.' ∨ c.isDigit) then none
    else
      match leadingInt s 0 with
      | none => none
      | some (v, s1) =>
        let pre : Bool := s1.length != s.length
        match (match s1 with
               | '.' :: r2 =>
                 let fr := leadingFraction r2 0 1 false
                 (fr.1, fr.2.1, fr.2.2, (r2.length != fr.2.2.length : Bool))
               | _ => ((0 : Nat), (1 : Nat), s1, false)) with
        | (f, scale, s2, post) =>
          if !pre && !post then none
          else
            let u := s2.takeWhile fun ch => ¬(ch = '.' ∨ ch.isDigit)
            let s3 := s2.dropWhile fun ch => ¬(ch = '.' ∨ ch.isDigit)
            if u = [] then none
            else
              match unitMap u with
              | none => none
              | some unit =>
                if v > 2 ^ 63 / unit then none
                else
                  let v1 := v * unit
                  let v2 := if f > 0 then v1 + f * unit / scale else v1
                  if v2 > 2 ^ 63 then none
                  else
                    let d1 := d + v2
                    if d1 > 2 ^ 63 then none
                    else parseDurationLoop fuel s3 d1

/-- Model of Go time.ParseDuration: optional sign, the special case "0", then
one or more number/fraction/unit components; the result is in nanoseconds.
Failure (any Go parse error) is none. -/
def parseDuration (str : String) : Option Int :=
  let s0 := str.toList
  let signed : Bool × List Char :=
    match s0 with
    | '-' :: rest => (true, rest)
    | '+' :: rest => (false, rest)
    | s => (false, s)
  let neg := signed.1
  let s1 := signed.2
  if s1 = ['0'] then some 0
  else if s1 = [] then none
  else
    match parseDurationLoop s1.length s1 0 with
    | none => none
    | some d =>
      if neg then some (-(d : Int))
      else if d > 2 ^ 63 - 1 then none
      else some (d : Int)

/-- Model of Go strconv.Atoi on a 64-bit platform: optional sign, at least one
digit, digits only, int64 range. -/
def atoi (s : String) : Option Int :=
  let s0 := s.toList
  let signed : Bool × List Char :=
    match s0 with
    | '-' :: rest => (true, rest)
    | '+' :: rest => (false, rest)
    | l => (false, l)
  let neg := signed.1
  let digits := signed.2
  if digits = [] then none
  else if digits.all Char.isDigit then
    let n : Nat := digits.foldl (fun acc c => acc * 10 + (c.toNat - 48)) 0
    let v : Int := if neg then -(n : Int) else (n : Int)
    if v < -(2 ^ 63) ∨ 2 ^ 63 - 1 < v then none else some v
  else none

/-- Splitting helper behind Go strings.Split(s, sep) for a one-character
separator. -/
def splitOnChar (sep : Char) : List Char → List (List Char)
  | [] => [[]]
  | c :: rest =>
    if c = sep then [] :: splitOnChar sep rest
    else
      match splitOnChar sep rest with
      | [] => [[c]]
      | g :: gs => (c :: g) :: gs

/-- Model of Go strings.Split(s, ":"). -/
def splitColon (s : String) : List String :=
  (splitOnChar ':' s.toList).map fun l => String.mk l

/-! ## Data model (model/model.go) -/

/-- Model of model.ScheduleType, a string tag. -/
def ScheduleInterval : String := "interval"

/-- Model of the daily variant tag of model.ScheduleType. -/
def ScheduleDaily : String := "daily"

/-- Model of model.Schedule.  The Go field Type is called stype here because
type is a Lean keyword. -/
structure Schedule where
  id : String
  name : String
  enabled : Bool
  stype : String
  every : String
  timeOfDay : String
  deriving Repr, DecidableEq

/-! ## Scheduler (scheduler/scheduler.go) -/

/-- Clock-time validation performed inline by the Daily branches of shouldRun
and NextRunInfo (scheduler.go lines 137-148 and 256-264): split on ":",
require at least two parts, Atoi both, range-check hour 0..23 and minute
0..59. -/
def parseTimeOfDay (s : String) : Option (Int × Int) :=
  let parts := splitColon s
  if parts.length < 2 then none
  else
    match atoi (parts.getD 0 ""), atoi (parts.getD 1 "") with
    | some hour, some min =>
      if hour < 0 ∨ hour > 23 ∨ min < 0 ∨ min > 59 then none
      else some (hour, min)
    | some _, none => none
    | none, _ => none

/-- Model of scheduler.sameDay: same Year and same YearDay. -/
def sameDay (a b : Time) : Bool := a.year == b.year && a.yearDay == b.yearDay

/-- Today's target instant computed by the Daily branch of shouldRun:
time.Date(now.Year(), now.Month(), now.Day(), hour, min, 0, 0, now.Location()). -/
def dailyTarget (now : Time) (hour min : Int) : Time :=
  date now.year now.month now.day hour min 0 0 now.loc

/-- Model of scheduler.shouldRun (scheduler.go lines 121-164). -/
def shouldRun (sc : Schedule) (lastRun now : Time) : Bool :=
  if sc.stype = ScheduleInterval then
    if sc.every = "" then false
    else
      match parseDuration sc.every with
      | none => false
      | some dur =>
        if dur ≤ 0 then false
        else if lastRun.isZero then true
        else decide (now.sub lastRun ≥ dur)
  else if sc.stype = ScheduleDaily then
    if sc.timeOfDay = "" then false
    else
      match parseTimeOfDay sc.timeOfDay with
      | none => false
      | some (hour, min) =>
        let loc := now.loc
        let target := dailyTarget now hour min
        if now.before target then false
        else if !lastRun.isZero && sameDay (lastRun.inLoc loc) now then false
        else true
  else false

/-- Go map from schedule id to last-run Time; lookup of an absent key yields
the zero Time, as in Go. -/
def lookupLastRun (m : List (String × Time)) (id : String) : Time :=
  match m.find? fun p => p.1 == id with
  | some p => p.2
  | none => zeroTime

/-- Go map assignment last[id] = t. -/
def setLastRun (m : List (String × Time)) (id : String) (t : Time) : List (String × Time) :=
  if m.any fun p => p.1 == id then
    m.map fun p => if p.1 == id then (id, t) else p
  else m ++ [(id, t)]

/-- Scheduler state guarded by the mutex: the schedule list and the lastRun
table (runner and callbacks are external collaborators). -/
structure SchedulerState where
  schedules : List Schedule
  lastRun : List (String × Time)

/-- Model of Scheduler.check (scheduler.go lines 78-100): iterate a snapshot
of the schedule list, skip disabled or empty-id schedules, skip schedules
whose due-predicate is false, and spawn runOnce(id, now) for the rest.  The
result is the list of spawned (id, tick time) pairs. -/
def check (scheds : List Schedule) (last : List (String × Time)) (now : Time) :
    List (String × Time) :=
  (scheds.filter fun sc =>
      sc.enabled && !(sc.id == "") && shouldRun sc (lookupLastRun last sc.id) now).map
    fun sc => (sc.id, now)

/-- Outcome of one Runner invocation: either a result with nil error, or a
non-nil error. -/
inductive RunResult where
  | ok
  | fail
  deriving Repr, DecidableEq

/-- Model of Scheduler.runOnce (scheduler.go lines 102-119) restricted to the
mutex-guarded state: on error, log and return without touching the state; on
success, set lastRun[id] to the tick time now that check passed in (the
onUpdate / onComplete hooks run outside the lock and touch no scheduler
state). -/
def runOnce (s : SchedulerState) (id : String) (now : Time) (res : RunResult) :
    SchedulerState :=
  match res with
  | .fail => s
  | .ok => { s with lastRun := setLastRun s.lastRun id now }

/-- Model of Scheduler.SetSchedules (scheduler.go lines 180-187): the schedule
list is replaced wholesale by a copy of the argument; lastRun is deliberately
not reset. -/
def SetSchedules (s : SchedulerState) (scheds : List Schedule) : SchedulerState :=
  { s with schedules := scheds }

/-- Result of Scheduler.NextRunInfo: the earliest candidate next-fire time (if
any) and that schedule's full trigger period in nanoseconds. -/
structure NextRunResult where
  nextRun : Option Time
  intervalDuration : Int
  deriving Repr, DecidableEq

/-- Per-schedule candidate computed by the switch inside NextRunInfo
(scheduler.go lines 236-288): none models continue.  The Daily else-branches
of the source are written out even though both yield tomorrow's target,
exactly as the source does. -/
def candidateFor (sc : Schedule) (lastRun now : Time) : Option (Time × Int) :=
  if sc.stype = ScheduleInterval then
    if sc.every = "" then none
    else
      match parseDuration sc.every with
      | none => none
      | some dur =>
        if dur ≤ 0 then none
        else
          let cand :=
            if lastRun.isZero then now
            else
              let c := lastRun.add dur
              if c.before now then now else c
          some (cand, dur)
  else if sc.stype = ScheduleDaily then
    if sc.timeOfDay = "" then none
    else
      match parseTimeOfDay sc.timeOfDay with
      | none => none
      | some (hour, min) =>
        let loc := now.loc
        let today := dailyTarget now hour min
        let cand :=
          if now.before today then today
          else if !lastRun.isZero && sameDay (lastRun.inLoc loc) now then
            today.addDate 0 0 1
          else today.addDate 0 0 1
        some (cand, 24 * 3600 * nsPerSec)
  else none

/-- Model of Scheduler.NextRunInfo (scheduler.go lines 214-300), with the
impure time.Now() passed in as now: fold over a snapshot of the schedule
list, skipping disabled or empty-id schedules and invalid parameters, keeping
the earliest candidate and its trigger period. -/
def NextRunInfo (s : SchedulerState) (now : Time) : NextRunResult :=
  s.schedules.foldl
    (fun acc sc =>
      if !sc.enabled || sc.id == "" then acc
      else
        match candidateFor sc (lookupLastRun s.lastRun sc.id) now with
        | none => acc
        | some (cand, dur) =>
          match acc.nextRun with
          | none => { nextRun := some cand, intervalDuration := dur }
          | some nt =>
            if cand.before nt then { nextRun := some cand, intervalDuration := dur }
            else acc)
    { nextRun := none, intervalDuration := 0 }

/-! ## Connection broadcast manager (api, WSConnectionManager)

Connections are identified by opaque handles (naturals); the registry holds
the key set of the Go map (Go maps have distinct keys, hence the Nodup
hypotheses).  Whether WriteJSON succeeds on a given connection for the
broadcast message is an oracle passed in as a function. -/

structure WSConnectionManager where
  connections : List Nat
  deriving Repr, DecidableEq

/-- Model of WSConnectionManager.Remove: delete the key from the registry
map. -/
def WSConnectionManager.remove (m : WSConnectionManager) (c : Nat) : WSConnectionManager :=
  { connections := m.connections.filter fun x => x ≠ c }

/-- Model of WSConnectionManager.Broadcast: snapshot the registry under the
read lock, then per snapshot entry take that connection's own write lock and
attempt the write; on failure remove the connection from the live registry.
Returns the final registry together with the list of connections that
received the message. -/
def WSConnectionManager.broadcast (m : WSConnectionManager) (writeOk : Nat → Bool) :
    WSConnectionManager × List Nat :=
  let snapshot := m.connections
  snapshot.foldl
    (fun acc c =>
      if writeOk c then (acc.1, acc.2 ++ [c])
      else (acc.1.remove c, acc.2))
    (m, [])

/-! ## Streamed-run handler (api/server.go, handleRunStream)

The concurrency-relevant effects of handleRunStream are modelled as pure
bookkeeping: what the run goroutine leaves on the two channels, what terminal
event the select loop emits, and how many times the progress channel gets
closed over the handler's lifetime. -/

/-- How one streamed run ends: the runner returns a (possibly nil) result
with nil error, returns a non-nil error, or panics (recovered by the deferred
function in the run goroutine). -/
inductive RunOutcome where
  | normal (resultNonNil : Bool)
  | failed
  | panicked
  deriving Repr, DecidableEq

/-- Observable effect of the run goroutine (server.go lines 333-360) on the
two channels: which final value lands on resultCh and whether the goroutine
executed close(progressCh).  On panic the deferred recover sends the panic as
an error on resultCh, but the close(progressCh) statement after the normal
send is skipped. -/
structure GoroutineEffect where
  resultNonNil : Bool
  errNonNil : Bool
  progressClosed : Bool
  deriving Repr, DecidableEq

/-- Effect of the run goroutine for each outcome, read off server.go lines
333-360. -/
def runGoroutine : RunOutcome → GoroutineEffect
  | .normal r => { resultNonNil := r, errNonNil := false, progressClosed := true }
  | .failed => { resultNonNil := false, errNonNil := true, progressClosed := true }
  | .panicked => { resultNonNil := false, errNonNil := true, progressClosed := false }

/-- Terminal event of the progress stream protocol. -/
inductive TerminalEvent where
  | errorEvent
  | completedEvent
  deriving Repr, DecidableEq

/-- How the handler's streaming select loop (server.go lines 362-398) ends
when the client stays connected: the terminal-event branch is reachable only
through the channel-closed case of the select; while progressCh stays open
and empty the select blocks (the only other case is ctx.Done()).
reachedTerminalPath records whether the channel-closed branch ran; emitted is
the terminal event written to the client, none when no event is emitted. -/
structure HandlerExit where
  reachedTerminalPath : Bool
  emitted : Option TerminalEvent
  deriving Repr, DecidableEq

/-- Exit behaviour of the streaming loop given the goroutine's channel
effect, for a client that never cancels: on a closed progress channel the
loop reads resultCh and emits error (err non-nil), completed (result
non-nil), or nothing; on an open channel it blocks and emits no terminal
event. -/
def streamLoop (eff : GoroutineEffect) : HandlerExit :=
  if eff.progressClosed then
    { reachedTerminalPath := true,
      emitted :=
        if eff.errNonNil then some .errorEvent
        else if eff.resultNonNil then some .completedEvent
        else none }
  else { reachedTerminalPath := false, emitted := none }

/-! Session bookkeeping of the progress tracker (server.go lines 35-68 and
313-360): createSession registers an open channel, close(ch) on an
already-closed channel is a Go runtime panic, and removeSession closes the
channel whenever the id is still registered, without any way to test whether
the channel was already closed. -/

/-- State of one progress session: whether its id is still in the tracker
map, whether its channel is still open, and how many times close() ran on the
channel (a count of 2 or more means a close-of-closed-channel runtime
panic). -/
structure SessionState where
  inMap : Bool
  chOpen : Bool
  closeCount : Nat
  deriving Repr, DecidableEq

/-- Effect of progressTracker.createSession: registered, channel open. -/
def createSession : SessionState :=
  { inMap := true, chOpen := true, closeCount := 0 }

/-- Effect of close(ch) on the session's channel.  Go panics when the channel
is already closed; the model records the attempt in closeCount instead of
halting, so the double close is observable. -/
def closeChan (st : SessionState) : SessionState :=
  { st with chOpen := false, closeCount := st.closeCount + 1 }

/-- Model of progressTracker.removeSession (server.go lines 61-68): when the
id is still in the map, close the channel unconditionally and delete the
entry; otherwise do nothing. -/
def removeSession (st : SessionState) : SessionState :=
  if st.inMap then { closeChan st with inMap := false } else st

/-- Channel-close bookkeeping of one full handleRunStream request whose run
finishes with outcome o while the client stays connected: createSession, then
the run goroutine's close(progressCh) when it executes one, then the deferred
removeSession when the handler returns. -/
def handleRunStreamCloses (o : RunOutcome) : SessionState :=
  let st := createSession
  let st := if (runGoroutine o).progressClosed then closeChan st else st
  removeSession st

/-! ## Concrete fixtures used by witnesses -/

/-- A valid enabled Interval schedule with every = "1h". -/
def scHour : Schedule :=
  { id := "h", name := "", enabled := true, stype := "interval", every := "1h", timeOfDay := "" }

/-- A valid enabled Daily schedule at 14:30. -/
def scDaily1430 : Schedule :=
  { id := "d", name := "", enabled := true, stype := "daily", every := "", timeOfDay := "14:30" }

/-- An Interval schedule with an unparseable every string. -/
def scBadEvery : Schedule :=
  { id := "x", name := "", enabled := true, stype := "interval", every := "soon", timeOfDay := "" }

/-- A reference instant: 2026-10-11 14:31:00 UTC. -/
def T0 : Time := { nanos := 63927325860000000000, loc := 0 }

/-! ## Helper lemmas -/

lemma parseTimeOfDay_empty : parseTimeOfDay "" = none := by decide

lemma parseDuration_empty : parseDuration "" = none := by decide

lemma lookup_setLastRun_self (m : List (String × Time)) (id : String) (t : Time) :
    lookupLastRun (setLastRun m id t) id = t := by
  rw [setLastRun]
  by_cases h : m.any fun p => p.1 == id
  · rw [if_pos h]
    induction m with
    | nil => simp at h
    | cons p m ih =>
      by_cases hp : p.1 == id
      · simp [lookupLastRun, List.find?, hp]
      · have h' : m.any (fun p => p.1 == id) = true := by
          simpa [List.any_cons, hp] using h
        simpa [lookupLastRun, List.find?, hp] using ih h'
  · rw [if_neg h]
    have hnone : m.find? (fun p => p.1 == id) = none := by
      rw [List.find?_eq_none]
      intro p hp
      intro hbeq
      exact h (List.any_of_mem hp hbeq)
    simp [lookupLastRun, List.find?_append, hnone, List.find?]

lemma lookup_setLastRun_other (m : List (String × Time)) (id id' : String) (t : Time)
    (h : id' ≠ id) :
    lookupLastRun (setLastRun m id t) id' = lookupLastRun m id' := by
  rw [setLastRun]
  by_cases hany : m.any fun p => p.1 == id
  · rw [if_pos hany]
    clear hany
    induction m with
    | nil => rfl
    | cons p m ih =>
      by_cases hp : p.1 == id
      · have hp' : p.1 = id := by simpa using hp
        have h1 : ((id : String) == id') = false := by
          simp [Ne.symm h]
        have h2 : (p.1 == id') = false := by
          simp [hp', Ne.symm h]
        simpa [lookupLastRun, List.find?, hp, h1, h2] using ih
      · by_cases hq : p.1 == id'
        · simp [lookupLastRun, List.find?, hp, hq]
        · simpa [lookupLastRun, List.find?, hp, hq] using ih
  · rw [if_neg hany]
    have h1 : ((id : String) == id') = false := by simp [Ne.symm h]
    by_cases hq : m.find? (fun p => p.1 == id') = none
    · simp [lookupLastRun, List.find?_append, hq, List.find?, h1]
    · obtain ⟨p, hp⟩ := Option.ne_none_iff_exists'.mp hq
      simp [lookupLastRun, List.find?_append, hp]

lemma broadcast_foldl (w : Nat → Bool) (snap : List Nat) (mgr : WSConnectionManager)
    (acc : List Nat) :
    snap.foldl
        (fun a c => if w c then (a.1, a.2 ++ [c]) else (a.1.remove c, a.2)) (mgr, acc)
      = ({ connections := mgr.connections.filter fun x => w x || decide (x ∉ snap) },
          acc ++ snap.filter w) := by
  induction snap generalizing mgr acc with
  | nil =>
    simp [List.filter_true]
  | cons c snap ih =>
    by_cases hc : w c
    · rw [List.foldl_cons, if_pos hc, ih]
      refine Prod.ext ?_ ?_
      · have : (mgr.connections.filter fun x => w x || decide (x ∉ snap))
            = mgr.connections.filter fun x => w x || decide (x ∉ c :: snap) := by
          apply List.filter_congr
          intro x hx
          by_cases hxc : x = c
          · simp [hxc, hc]
          · simp [List.mem_cons, hxc]
        simpa using this
      · simp [List.filter_cons, hc]
    · rw [List.foldl_cons, if_neg hc, ih]
      refine Prod.ext ?_ ?_
      · have : ((mgr.remove c).connections.filter fun x => w x || decide (x ∉ snap))
            = mgr.connections.filter fun x => w x || decide (x ∉ c :: snap) := by
          rw [WSConnectionManager.remove, List.filter_filter]
          apply List.filter_congr
          intro x hx
          by_cases hxc : x = c
          · simp [hxc, hc]
          · simp [List.mem_cons, hxc]
        simpa using this
      · simp [List.filter_cons, hc]

/-! ## Claims -/

/-- Claim C1: for every schedule of type Interval with a non-empty every that
parses to a positive duration, shouldRun(schedule, lastRun, now) returns true
if and only if lastRun is unset (zero) or now - lastRun is at least every. -/
theorem interval_shouldRun_iff (sc : Schedule) (lastRun now : Time) (d : Int)
    (hty : sc.stype = ScheduleInterval) (hne : sc.every ≠ "")
    (hp : parseDuration sc.every = some d) (hpos : 0 < d) :
    shouldRun sc lastRun now = true ↔
      (lastRun.isZero = true ∨ d ≤ now.sub lastRun) := by
  have hd : ¬ (d ≤ 0) := by omega
  simp only [shouldRun, hty, if_pos rfl, if_neg hne, hp, if_neg hd, ge_iff_le]
  cases hz : lastRun.isZero <;> simp [hz]

/-- Claim C1 witness: an Interval schedule with every = "1h" is due when
lastRun is unset, and not due 30 minutes after a run. -/
theorem interval_shouldRun_iff_witness :
    shouldRun scHour zeroTime T0 = true ∧
      shouldRun scHour T0 (T0.add (30 * 60 * 1000000000)) = false := by
  constructor
  · exact (interval_shouldRun_iff scHour zeroTime T0 3600000000000 rfl (by decide)
      (by decide) (by decide)).mpr (Or.inl (by decide))
  · have h := interval_shouldRun_iff scHour T0 (T0.add (30 * 60 * 1000000000))
      3600000000000 rfl (by decide) (by decide) (by decide)
    simp only [Bool.not_eq_true] at h ⊢
    rw [← Bool.not_eq_true]
    intro htrue
    rcases h.mp htrue with hz | hle
    · exact absurd hz (by decide)
    · exact absurd hle (by decide)

/-- Claim C3: a schedule of type Interval with empty or unparseable every,
of type Daily with empty, unparseable or out-of-range timeOfDay, or of any
unknown type is never due: shouldRun returns false for every lastRun and now
(and, being a total Boolean function, raises no error). -/
theorem malformed_schedule_never_due (sc : Schedule) (lastRun now : Time)
    (h : (sc.stype = ScheduleInterval ∧ (sc.every = "" ∨ parseDuration sc.every = none))
       ∨ (sc.stype = ScheduleDaily ∧
            (sc.timeOfDay = "" ∨ parseTimeOfDay sc.timeOfDay = none))
       ∨ (sc.stype ≠ ScheduleInterval ∧ sc.stype ≠ ScheduleDaily)) :
    shouldRun sc lastRun now = false := by
  rcases h with ⟨hty, hev⟩ | ⟨hty, htd⟩ | ⟨h1, h2⟩
  · rcases hev with he | hn
    · simp [shouldRun, hty, he]
    · by_cases he : sc.every = ""
      · simp [shouldRun, hty, he]
      · simp [shouldRun, hty, he, hn]
  · have hdi : ScheduleDaily ≠ ScheduleInterval := by decide
    rcases htd with he | hn
    · simp [shouldRun, hty, hdi, he]
    · by_cases he : sc.timeOfDay = ""
      · simp [shouldRun, hty, hdi, he]
      · simp [shouldRun, hty, hdi, he, hn]
  · simp [shouldRun, h1, h2]

/-- Claim C3 witness: an Interval schedule whose every does not parse is not
due even with lastRun unset. -/
theorem malformed_schedule_never_due_witness :
    shouldRun scBadEvery zeroTime T0 = false :=
  malformed_schedule_never_due scBadEvery zeroTime T0
    (Or.inl ⟨rfl, Or.inr (by decide)⟩)

/-- Claim C2 (amended): for every schedule of type Daily with a valid "HH:MM"
timeOfDay, shouldRun(schedule, lastRun, now) returns true iff now is at or
after today's target time in now's local zone and (lastRun is unset or
lastRun is not on the same calendar day as now); consequently, at most one
true evaluation occurs per calendar day when lastRun is updated to the
evaluation time after each true evaluation, provided the evaluation time is
not the Go zero Time (a lastRun recorded exactly at the zero instant is
indistinguishable from lastRun being unset and does not suppress a second
trigger that day). -/
theorem daily_shouldRun_iff_once (sc : Schedule) (hour min : Int) (lastRun now : Time)
    (hty : sc.stype = ScheduleDaily)
    (hp : parseTimeOfDay sc.timeOfDay = some (hour, min)) :
    (shouldRun sc lastRun now = true ↔
        (now.before (dailyTarget now hour min) = false ∧
          (lastRun.isZero = true ∨ sameDay (lastRun.inLoc now.loc) now = false)))
    ∧ ∀ now', now.isZero = false → sameDay (now.inLoc now'.loc) now' = true →
        shouldRun sc now now' = false := by
  have hdi : ScheduleDaily ≠ ScheduleInterval := by decide
  have hne : sc.timeOfDay ≠ "" := by
    intro he
    rw [he, parseTimeOfDay_empty] at hp
    exact Option.noConfusion hp
  constructor
  · simp only [shouldRun, hty, hdi, if_neg hdi, if_pos rfl, if_neg hne, hp]
    cases hb : now.before (dailyTarget now hour min)
    · cases hz : lastRun.isZero <;>
        cases hsd : sameDay (lastRun.inLoc now.loc) now <;>
          simp [hb, hz, hsd]
    · simp [hb]
  · intro now' hz hsd
    simp only [shouldRun, hty, hdi, if_neg hdi, if_pos rfl, if_neg hne, hp]
    cases hb : now'.before (dailyTarget now' hour min)
    · simp [hb, hz, hsd]
    · simp [hb]

/-- Claim C2 counterexample: the claim as stated fails at the Go zero Time.
With timeOfDay "00:00", an evaluation at the zero instant is due (lastRun
unset); updating lastRun to that evaluation time stores the zero Time, which
is unset again, so an evaluation one hour later on the same calendar day
(year 1, day 1) is due a second time — two true evaluations on one calendar
day despite lastRun being updated after each. -/
theorem daily_twice_per_day_at_zero_time :
    (shouldRun
        { id := "s", name := "", enabled := true, stype := "daily",
          every := "", timeOfDay := "00:00" } zeroTime zeroTime = true)
    ∧ (shouldRun
        { id := "s", name := "", enabled := true, stype := "daily",
          every := "", timeOfDay := "00:00" } zeroTime
        { nanos := 3600000000000, loc := 0 } = true)
    ∧ sameDay (zeroTime.inLoc 0) { nanos := 3600000000000, loc := 0 } = true := by
  decide

/-- Claim C2 witness: the Daily schedule at 14:30 is due at 14:31 with lastRun
unset, and not due at 14:35 the same day after lastRun was updated to
14:31. -/
theorem daily_shouldRun_iff_once_witness :
    shouldRun scDaily1430 zeroTime T0 = true ∧
      shouldRun scDaily1430 T0 (T0.add (4 * 60 * 1000000000)) = false := by
  have h := daily_shouldRun_iff_once scDaily1430 14 30 zeroTime T0 rfl (by decide)
  exact ⟨h.1.mpr (by decide), h.2 (T0.add (4 * 60 * 1000000000)) (by decide) (by decide)⟩

/-- Claim C4: for every spawned run of schedule id at tick time now, a
successful runner return sets LastRun[id] to the tick time now that check
passed along (every pair check spawns carries the tick time, not a completion
time), leaving the schedule list and every other LastRun entry unchanged,
while a runner error mutates no scheduler state at all. -/
theorem runOnce_success_sets_tick_time (st : SchedulerState) (id : String) (now : Time) :
    ((runOnce st id now .ok).schedules = st.schedules
      ∧ lookupLastRun (runOnce st id now .ok).lastRun id = now
      ∧ ∀ id', id' ≠ id →
          lookupLastRun (runOnce st id now .ok).lastRun id'
            = lookupLastRun st.lastRun id')
    ∧ runOnce st id now .fail = st
    ∧ ∀ pr ∈ check st.schedules st.lastRun now, pr.2 = now := by
  refine ⟨⟨rfl, ?_, ?_⟩, rfl, ?_⟩
  · exact lookup_setLastRun_self st.lastRun id now
  · intro id' hne
    exact lookup_setLastRun_other st.lastRun id id' now hne
  · intro pr hpr
    rcases List.mem_map.mp hpr with ⟨sc, _, rfl⟩
    rfl

/-- Claim C4 witness: a concrete success updates LastRun for its own id only,
and a concrete failure leaves the state untouched. -/
theorem runOnce_success_sets_tick_time_witness :
    lookupLastRun
        (runOnce { schedules := [scHour], lastRun := [("b", zeroTime)] } "a" T0 .ok).lastRun
        "a" = T0
    ∧ lookupLastRun
        (runOnce { schedules := [scHour], lastRun := [("b", zeroTime)] } "a" T0 .ok).lastRun
        "b" = lookupLastRun [("b", zeroTime)] "b"
    ∧ runOnce { schedules := [scHour], lastRun := [("b", zeroTime)] } "a" T0 .fail
        = { schedules := [scHour], lastRun := [("b", zeroTime)] } := by
  have h := runOnce_success_sets_tick_time
    { schedules := [scHour], lastRun := [("b", zeroTime)] } "a" T0
  exact ⟨h.1.2.1, h.1.2.2 "b" (by decide), h.2.1⟩

/-- Claim C5: SetSchedules replaces the schedule list wholesale with the given
list and leaves the LastRun table untouched: every entry, including entries
for ids absent from the new list, is preserved and never evicted. -/
theorem SetSchedules_replaces_list_preserves_lastRun (st : SchedulerState)
    (list : List Schedule) :
    (SetSchedules st list).schedules = list
    ∧ (SetSchedules st list).lastRun = st.lastRun
    ∧ ∀ id, lookupLastRun (SetSchedules st list).lastRun id
        = lookupLastRun st.lastRun id :=
  ⟨rfl, rfl, fun _ => rfl⟩

/-- Claim C10: on every tick evaluation, a schedule whose id is the empty
string is never launched: every spawned pair carries a non-empty id, and a
schedule list consisting of an enabled, otherwise-due schedule with empty id
spawns nothing. -/
theorem check_never_launches_empty_id (scheds : List Schedule)
    (last : List (String × Time)) (now : Time) :
    (∀ pr ∈ check scheds last now, pr.1 ≠ "")
    ∧ ∀ sc : Schedule, sc.id = "" → check [sc] last now = [] := by
  constructor
  · intro pr hpr
    rcases List.mem_map.mp hpr with ⟨sc, hmem, rfl⟩
    have hcond := List.of_mem_filter hmem
    simp only [Bool.and_eq_true, Bool.not_eq_true'] at hcond
    intro he
    have he' : sc.id = "" := he
    rw [he'] at hcond
    simp at hcond
  · intro sc hid
    simp [check, List.filter_cons, hid]

/-- Claim C10 witness: a due enabled schedule with id "h" is spawned (with a
non-empty id), while the same schedule with its id emptied — still enabled
and still due — spawns nothing. -/
theorem check_never_launches_empty_id_witness :
    ("h", T0) ∈ check [scHour] [] T0
    ∧ ("h" : String) ≠ ""
    ∧ check [{ scHour with id := "" }] [] T0 = []
    ∧ shouldRun { scHour with id := "" } (lookupLastRun [] "") T0 = true := by
  have h := check_never_launches_empty_id [scHour] [] T0
  refine ⟨by decide, h.1 ("h", T0) (by decide), h.2 { scHour with id := "" } rfl, by decide⟩

/-- Claim C6: for a scheduler with a single enabled Interval schedule whose
every parses to a positive duration and whose lastRun is set, NextRunInfo
returns the candidate lastRun + every when that instant is not before now,
and now when lastRun + every is already in the past; in both cases the
returned trigger period equals every. -/
theorem nextRunInfo_interval (sc : Schedule) (st : SchedulerState) (now : Time) (d : Int)
    (hs : st.schedules = [sc]) (hen : sc.enabled = true) (hid : sc.id ≠ "")
    (hty : sc.stype = ScheduleInterval) (hne : sc.every ≠ "")
    (hp : parseDuration sc.every = some d) (hpos : 0 < d)
    (hlz : (lookupLastRun st.lastRun sc.id).isZero = false) :
    (((lookupLastRun st.lastRun sc.id).add d).before now = false →
        NextRunInfo st now
          = { nextRun := some ((lookupLastRun st.lastRun sc.id).add d),
              intervalDuration := d })
    ∧ (((lookupLastRun st.lastRun sc.id).add d).before now = true →
        NextRunInfo st now = { nextRun := some now, intervalDuration := d }) := by
  have hd : ¬ (d ≤ 0) := by omega
  have hid' : (sc.id == "") = false := by simp [hid]
  constructor <;> intro hb <;>
    simp [NextRunInfo, hs, hen, hid, hid', candidateFor, hty, hne, hp, hd, hlz, hb]

/-- Claim C6 witness: every = "1h" and lastRun = now - 90m yields the clamped
candidate now with trigger period 1h, while lastRun = now - 30m yields the
candidate lastRun + 1h. -/
theorem nextRunInfo_interval_witness :
    NextRunInfo
        { schedules := [scHour], lastRun := [("h", T0.add (-(90 * 60 * 1000000000)))] } T0
      = { nextRun := some T0, intervalDuration := 3600000000000 }
    ∧ NextRunInfo
        { schedules := [scHour], lastRun := [("h", T0.add (-(30 * 60 * 1000000000)))] } T0
      = { nextRun := some (T0.add (30 * 60 * 1000000000)), intervalDuration := 3600000000000 } := by
  constructor
  · have h := nextRunInfo_interval scHour
      { schedules := [scHour], lastRun := [("h", T0.add (-(90 * 60 * 1000000000)))] }
      T0 3600000000000 rfl rfl (by decide) rfl (by decide) (by decide) (by decide) (by decide)
    exact h.2 (by decide)
  · have h := nextRunInfo_interval scHour
      { schedules := [scHour], lastRun := [("h", T0.add (-(30 * 60 * 1000000000)))] }
      T0 3600000000000 rfl rfl (by decide) rfl (by decide) (by decide) (by decide) (by decide)
    exact (h.1 (by decide)).trans (by decide)

/-- Claim C7: Broadcast attempts a write to every connection in the snapshot;
exactly the connections whose write fails are removed from the registry,
every connection whose write succeeds stays registered, and each successful
connection receives the message exactly once (the delivered list is exactly
the successful part of the snapshot). -/
theorem broadcast_removes_only_failures (m : WSConnectionManager) (w : Nat → Bool)
    (hnd : m.connections.Nodup) :
    ((m.broadcast w).1.connections = m.connections.filter fun c => w c)
    ∧ ((m.broadcast w).2 = m.connections.filter fun c => w c)
    ∧ ∀ c ∈ m.connections, w c = true → (m.broadcast w).2.count c = 1 := by
  have hfold := broadcast_foldl w m.connections m []
  have hconn : (m.broadcast w).1.connections
      = m.connections.filter fun x => w x || decide (x ∉ m.connections) := by
    rw [WSConnectionManager.broadcast, hfold]
  have hconn' : (m.broadcast w).1.connections = m.connections.filter fun c => w c := by
    rw [hconn]
    apply List.filter_congr
    intro x hx
    simp [hx]
  have hdel : (m.broadcast w).2 = m.connections.filter fun c => w c := by
    rw [WSConnectionManager.broadcast, hfold]
    simp
  refine ⟨hconn', hdel, ?_⟩
  intro c hc hw
  rw [hdel]
  have hmem : c ∈ m.connections.filter fun c => w c := List.mem_filter.mpr ⟨hc, hw⟩
  exact List.count_eq_one_of_mem (hnd.filter _) hmem

/-- Claim C7 witness: broadcasting to registered connections 1, 2, 3 where
only the write to 2 fails removes exactly connection 2 and delivers one
message each to 1 and 3. -/
theorem broadcast_removes_only_failures_witness :
    ((WSConnectionManager.broadcast { connections := [1, 2, 3] }
        fun c => decide (c ≠ 2)).1.connections = [1, 3])
    ∧ ((WSConnectionManager.broadcast { connections := [1, 2, 3] }
        fun c => decide (c ≠ 2)).2 = [1, 3])
    ∧ ((WSConnectionManager.broadcast { connections := [1, 2, 3] }
        fun c => decide (c ≠ 2)).2.count 1 = 1)
    ∧ ((WSConnectionManager.broadcast { connections := [1, 2, 3] }
        fun c => decide (c ≠ 2)).2.count 3 = 1) := by
  have h := broadcast_removes_only_failures { connections := [1, 2, 3] }
    (fun c => decide (c ≠ 2)) (by decide)
  exact ⟨h.1.trans (by decide), h.2.1.trans (by decide),
    h.2.2 1 (by decide) (by decide), h.2.2 3 (by decide) (by decide)⟩

/-- Claim C8 (code evaluated at the failing input): when the runner panics,
the recover in the run goroutine does convert the panic into an error value
on resultCh, but it never closes the progress channel, so the handler's
select loop never takes the channel-closed branch and no terminal error event
is emitted — the handler blocks until client disconnect instead of reaching
its terminal-event path.  A runner error without a panic, by contrast, does
reach the terminal path and emits the error event. -/
theorem panicked_run_never_reaches_terminal :
    runGoroutine .panicked
      = { resultNonNil := false, errNonNil := true, progressClosed := false }
    ∧ streamLoop (runGoroutine .panicked)
      = { reachedTerminalPath := false, emitted := none }
    ∧ streamLoop (runGoroutine .failed)
      = { reachedTerminalPath := true, emitted := some .errorEvent } := by
  decide

/-- Claim C9 (code evaluated at the failing input): for a streamed run that
completes normally with the client connected, the run goroutine closes the
progress channel and the handler's deferred removeSession — finding the
session id still registered — closes the same channel a second time: the
close count reaches 2, which in Go is a close-of-closed-channel runtime
panic, contradicting the claim that the channel is closed exactly once. -/
theorem double_close_on_normal_completion :
    handleRunStreamCloses (.normal true)
      = { inMap := false, chOpen := false, closeCount := 2 }
    ∧ streamLoop (runGoroutine (.normal true))
      = { reachedTerminalPath := true, emitted := some .completedEvent } := by
  decide

end Speedplane
